import Mathlib

/-!
Verification of the batch image-update pipeline of
`product-image-updater-server` (imageUpdateHandler, DynamoDBService,
S3Service interface).  The TypeScript source is shallowly embedded:
JavaScript string primitives (`split`, `trim`, `join`) are modelled on
`List Char`, the Shopify catalog client is an oracle of `Except`-valued
functions, and the asynchronous handler body becomes explicit state
passing that records the trace of catalog calls and record-store writes.
-/

namespace ProductImageUpdater

/-! ## Models of the JavaScript string primitives used by the handler -/

/-- Model of `String.prototype.trim` on the character list: drop leading and
trailing whitespace. -/
def trimChars (cs : List Char) : List Char :=
  ((cs.dropWhile Char.isWhitespace).reverse.dropWhile Char.isWhitespace).reverse

/-- Model of JavaScript `s.trim()`. -/
def jsTrim (s : String) : String :=
  String.mk (trimChars s.data)

/-- Model of JavaScript `s.split(sep)` for a one-character separator:
splitting the empty string yields one empty chunk, every occurrence of the
separator starts a new chunk. -/
def splitChar (sep : Char) : List Char → List (List Char)
  | [] => [[]]
  | c :: cs =>
    if c = sep then [] :: splitChar sep cs
    else
      match splitChar sep cs with
      | [] => [[c]]
      | g :: gs => (c :: g) :: gs

/-- Model of JavaScript `content.split('\n')`. -/
def splitNewlines (s : String) : List String :=
  (splitChar '\n' s.data).map String.mk

/-- Model of `content.split('\n').filter(line => line.trim().length > 0)`,
the blank-line filter used in the upload and process endpoints. -/
def splitNonBlankLines (s : String) : List String :=
  (splitNewlines s).filter (fun line => decide (0 < (jsTrim line).length))

/-- Model of `Array.prototype.join(sep)`. -/
def joinSep (sep : String) : List String → String
  | [] => ""
  | [s] => s
  | s :: rest => s ++ sep ++ joinSep sep rest

/-! ## The CSV row type (interface `ImageUpdateCSVRow`) -/

structure ImageUpdateCSVRow where
  product_id : String
  product_handle : String
  current_image_id : String
  collection_name : String
  new_image_url : String
deriving DecidableEq, Repr

/-- The fixed header columns (`csvHeaders` in the handler). -/
def csvHeaders : List String :=
  ["product_id", "product_handle", "current_image_id", "collection_name", "new_image_url"]

/-- The header line `csvHeaders.join(',')`. -/
def csvHeader : String := joinSep "," csvHeaders

/-- The five field values of a row, in column order, as emitted by the
template/upload CSV generators. -/
def rowFields (row : ImageUpdateCSVRow) : List String :=
  [row.product_id, row.product_handle, row.current_image_id,
   row.collection_name, row.new_image_url]

/-- One encoded CSV line: `[...fields].join(',')`. -/
def encodeRow (row : ImageUpdateCSVRow) : String :=
  joinSep "," (rowFields row)

/-- The CSV text built by the handler:
`[csvHeaders.join(','), ...rows.map(join(','))].join('\n')`. -/
def encodeCSV (rows : List ImageUpdateCSVRow) : String :=
  joinSep "\n" (csvHeader :: rows.map encodeRow)

/-! ## The quote-aware CSV line scanner (`parseCSVLine`) -/

/-- The loop body of `parseCSVLine`: `result` are the fields pushed so far,
`current` the characters of the field being scanned, `inQuotes` the
quote-toggle state.  A `"` toggles `inQuotes`, a `,` outside quotes pushes
`current.trim()`, any other character is appended to `current`; at end of
input the final `current.trim()` is pushed. -/
def parseCSVLineAux : List Char → List String → List Char → Bool → List String
  | [], result, current, _ => result ++ [jsTrim (String.mk current)]
  | c :: cs, result, current, inQuotes =>
    if c = '"' then
      parseCSVLineAux cs result current (!inQuotes)
    else if c = ',' ∧ inQuotes = false then
      parseCSVLineAux cs (result ++ [jsTrim (String.mk current)]) [] inQuotes
    else
      parseCSVLineAux cs result (current ++ [c]) inQuotes

/-- `parseCSVLine(line)` of the process endpoint. -/
def parseCSVLine (line : String) : List String :=
  parseCSVLineAux line.data [] [] false

/-- Building a row from parsed values: `values[i] || ''` (a missing value
and an empty value both give the empty string). -/
def rowOfValues (values : List String) : ImageUpdateCSVRow :=
  { product_id := values.getD 0 ""
    product_handle := values.getD 1 ""
    current_image_id := values.getD 2 ""
    collection_name := values.getD 3 ""
    new_image_url := values.getD 4 "" }

/-- CSV decoding as performed by the process endpoint: split on newlines,
drop blank lines, fail with `CSV file is empty` when nothing remains,
otherwise parse every line after the first (header) into a row. -/
def decodeCSV (content : String) : Except String (List ImageUpdateCSVRow) :=
  let lines := splitNonBlankLines content
  if lines.length = 0 then
    Except.error "CSV file is empty"
  else
    Except.ok ((lines.drop 1).map (fun line => rowOfValues (parseCSVLine line)))

/-! ## URL validation -/

/-- `s.startsWith(pre)` modelled on the character lists. -/
def startsWithChars : List Char → List Char → Bool
  | [], _ => true
  | _ :: _, [] => false
  | p :: ps, c :: cs => p = c && startsWithChars ps cs

/-- Modelled platform primitive: `isValidImageUrl` wraps `new URL(url)` and
checks `protocol === 'http:' || protocol === 'https:'`.  WHATWG URL parsing
is approximated by a scheme check; the approximation agrees with the
platform on well-formed `http(s)://host/...` URLs and on scheme-less
strings such as `not-a-url`. -/
def isValidImageUrl (url : String) : Bool :=
  startsWithChars "http://".data url.data || startsWithChars "https://".data url.data

/-! ## Catalog data model (Shopify responses as used by the handler) -/

structure ProductImage where
  id : String
deriving DecidableEq, Repr

structure Variant where
  id : String
  image_id : String
deriving DecidableEq, Repr

structure Product where
  id : String
  handle : String
  images : List ProductImage
  variants : List Variant
deriving DecidableEq, Repr

/-- One remote catalog call issued by the Update Executor, recorded in the
execution trace. -/
inductive CatalogCall where
  | getProduct (productId : String)
  | uploadImage (productId : String) (url : String) (position : Nat)
  | updateVariantImage (variantId : String) (imageId : String)
  | deleteImage (imageId : String) (productId : String)
deriving DecidableEq, Repr

/-- The catalog collaborator (`ShopifyService`) as an oracle: each call
either returns its result or raises an error string.  `uploadImage`
returns the created image's identifier (`imageResponse.image.id`). -/
structure Catalog where
  getProduct : String → Except String Product
  uploadImage : String → String → Nat → Except String String
  updateVariantImage : String → String → Except String Unit
  deleteImage : String → String → Except String Unit

/-! ## Product Grouper (process endpoint, grouping loop) -/

/-- Append `row` to the group keyed `pid`, creating the group at the end of
the key order if absent — JavaScript `Map` insertion-order semantics. -/
def insertRow (groups : List (String × List ImageUpdateCSVRow)) (pid : String)
    (row : ImageUpdateCSVRow) : List (String × List ImageUpdateCSVRow) :=
  match groups with
  | [] => [(pid, [row])]
  | (k, rs) :: rest =>
    if k = pid then (k, rs ++ [row]) :: rest
    else (k, rs) :: insertRow rest pid row

/-- One step of the grouping loop: empty-URL rows are skipped, invalid-URL
rows are recorded as a `Skipping product ...` error, valid rows are added
to their product's group. -/
def groupStep (acc : List (String × List ImageUpdateCSVRow) × List String)
    (row : ImageUpdateCSVRow) : List (String × List ImageUpdateCSVRow) × List String :=
  if row.new_image_url = "" then
    acc
  else if isValidImageUrl row.new_image_url = false then
    (acc.1, acc.2 ++
      ["Skipping product " ++ row.product_id ++ ": Invalid image URL \"" ++
        row.new_image_url ++ "\""])
  else
    (insertRow acc.1 row.product_id row, acc.2)

/-- The grouping loop over all decoded rows: the product groups in key
insertion order together with the per-row errors pushed while grouping. -/
def groupRows (rows : List ImageUpdateCSVRow) :
    List (String × List ImageUpdateCSVRow) × List String :=
  rows.foldl groupStep ([], [])

/-! ## Update Executor (process endpoint, per-product loop) -/

/-- The variant re-pointing loop: for every variant whose `image_id` equals
the row's `current_image_id`, call `updateVariantImage`; an error aborts
the loop (the exception propagates to the per-product handler).  Returns
the calls issued and the error, if any. -/
def updateVariants (cat : Catalog) (variants : List Variant)
    (currentImageId newImageId : String) : List CatalogCall × Option String :=
  match variants with
  | [] => ([], none)
  | v :: vs =>
    if v.image_id = currentImageId then
      match cat.updateVariantImage v.id newImageId with
      | Except.error e => ([CatalogCall.updateVariantImage v.id newImageId], some e)
      | Except.ok _ =>
        let r := updateVariants cat vs currentImageId newImageId
        (CatalogCall.updateVariantImage v.id newImageId :: r.1, r.2)
    else
      updateVariants cat vs currentImageId newImageId

/-- The per-row loop of one product group.  Arguments mirror the loop
state: remaining rows, loop index `i`, the `processedImages` and
`imagesToDelete` sets (insertion-ordered, deduplicated lists) and the
running `imagesUpdated` count.  Returns the catalog calls issued, the
final `imagesToDelete`, the final count, and the first uncaught error. -/
def processRows (cat : Catalog) (productId : String) (variants : List Variant) :
    List ImageUpdateCSVRow → Nat → List String → List String → Nat →
    List CatalogCall × List String × Nat × Option String
  | [], _, _, dels, count => ([], dels, count, none)
  | row :: rest, i, processed, dels, count =>
    if processed.contains row.new_image_url then
      processRows cat productId variants rest (i + 1) processed dels count
    else
      match cat.uploadImage productId row.new_image_url (i + 1) with
      | Except.error e =>
        ([CatalogCall.uploadImage productId row.new_image_url (i + 1)], dels, count, some e)
      | Except.ok newImageId =>
        let v :=
          if i = 0 ∧ row.current_image_id ≠ "" then
            updateVariants cat variants row.current_image_id newImageId
          else ([], none)
        match v.2 with
        | some e =>
          (CatalogCall.uploadImage productId row.new_image_url (i + 1) :: v.1,
            dels, count, some e)
        | none =>
          let dels' :=
            if row.current_image_id ≠ "" then
              (if dels.contains row.current_image_id then dels
               else dels ++ [row.current_image_id])
            else dels
          let r := processRows cat productId variants rest (i + 1)
            (processed ++ [row.new_image_url]) dels' (count + 1)
          (CatalogCall.uploadImage productId row.new_image_url (i + 1) :: v.1 ++ r.1,
            r.2.1, r.2.2.1, r.2.2.2)

/-- The old-image cleanup loop: one `deleteImage` call per identifier in
the `imagesToDelete` set; failures are caught and logged, so the result of
each call is irrelevant to the state. -/
def deleteImages (productId : String) : List String → List CatalogCall
  | [] => []
  | d :: ds => CatalogCall.deleteImage d productId :: deleteImages productId ds

/-- Processing of one product group, including the surrounding
`try`/`catch`: fetch the product, run the rows, then (on success) delete
the superseded images.  Returns the trace, the number of `imagesUpdated`
increments, and the caught error, if any. -/
def processGroup (cat : Catalog) (productId : String)
    (rows : List ImageUpdateCSVRow) : List CatalogCall × Nat × Option String :=
  match cat.getProduct productId with
  | Except.error e => ([CatalogCall.getProduct productId], 0, some e)
  | Except.ok product =>
    let r := processRows cat productId product.variants rows 0 [] [] 0
    match r.2.2.2 with
    | some e => (CatalogCall.getProduct productId :: r.1, r.2.2.1, some e)
    | none =>
      (CatalogCall.getProduct productId :: r.1 ++ deleteImages productId r.2.1,
        r.2.2.1, none)

/-- The loop over all product groups: every group is processed, a caught
error is appended as `Failed to update product <id>: <detail>`, the count
accumulates across groups. -/
def processGroups (cat : Catalog) :
    List (String × List ImageUpdateCSVRow) → List CatalogCall × Nat × List String
  | [] => ([], 0, [])
  | g :: rest =>
    let r := processGroup cat g.1 g.2
    let r2 := processGroups cat rest
    match r.2.2 with
    | some e =>
      (r.1 ++ r2.1, r.2.1 + r2.2.1,
        ("Failed to update product " ++ g.1 ++ ": " ++ e) :: r2.2.2)
    | none => (r.1 ++ r2.1, r.2.1 + r2.2.1, r2.2.2)

/-! ## Derived views of the execution trace -/

def isUploadCall : CatalogCall → Bool
  | CatalogCall.uploadImage _ _ _ => true
  | _ => false

/-- The `uploadImage` calls of a trace, in order. -/
def uploadCalls (t : List CatalogCall) : List CatalogCall :=
  t.filter isUploadCall

/-- The position argument of an upload call. -/
def callPosition : CatalogCall → Nat
  | CatalogCall.uploadImage _ _ n => n
  | _ => 0

/-- Specification-level description of the uploads a group's row loop
performs when every catalog call succeeds: scanning the rows from loop
index `i` with already-seen URLs `seen`, each row whose URL was not seen
before is uploaded with position `index + 1` (the index within the full
group row list), and its URL becomes seen. -/
def acceptedUploads (productId : String) :
    List ImageUpdateCSVRow → Nat → List String → List CatalogCall
  | [], _, _ => []
  | row :: rest, i, seen =>
    if seen.contains row.new_image_url then
      acceptedUploads productId rest (i + 1) seen
    else
      CatalogCall.uploadImage productId row.new_image_url (i + 1) ::
        acceptedUploads productId rest (i + 1) (seen ++ [row.new_image_url])

/-! ## Operation lifecycle and record-store writes -/

inductive OpStatus where
  | pending
  | processing
  | completed
  | failed
deriving DecidableEq, Repr

inductive FileStatus where
  | pending
  | processed
  | archived
deriving DecidableEq, Repr

/-- The fields carried by one `updateImageUpdateOperation` call of the
process endpoint (`status` always, `imagesUpdated`/`errorMessage` on the
final write; `undefined` fields are absent). -/
structure OpUpdateFields where
  status : OpStatus
  imagesUpdated : Option Nat := none
  errorMessage : Option String := none
deriving DecidableEq, Repr

/-- One record-store write performed by the process endpoint. -/
inductive StoreWrite where
  | opUpdate (fields : OpUpdateFields)
  | fileUpdate (fileId : String) (status : FileStatus)
deriving DecidableEq, Repr

/-- Observable outcome of a completed run of the process endpoint. -/
structure ProcessResult where
  writes : List StoreWrite
  trace : List CatalogCall
  imagesUpdated : Nat
  errors : List String
  finalStatus : OpStatus
deriving DecidableEq, Repr

/-- The process endpoint (`POST .../process`) after the upload file's CSV
content has been downloaded: decode the CSV (hard error `CSV file is
empty` when no non-blank line remains), write `processing`, group the
rows, run the Update Executor over every group, then write the final
status with `imagesUpdated` and the joined `errorMessage`, and finally
mark the upload file record `processed`. -/
def processOperation (cat : Catalog) (fileId : String) (csvContent : String) :
    Except String ProcessResult :=
  match decodeCSV csvContent with
  | Except.error e => Except.error e
  | Except.ok rows =>
    let grouped := groupRows rows
    let executed := processGroups cat grouped.1
    let errors := grouped.2 ++ executed.2.2
    let finalStatus := if errors.length = 0 then OpStatus.completed else OpStatus.failed
    Except.ok
      { writes :=
          [StoreWrite.opUpdate { status := OpStatus.processing },
           StoreWrite.opUpdate
             { status := finalStatus
               imagesUpdated := some executed.2.1
               errorMessage :=
                 if errors.length > 0 then some (joinSep "; " errors) else none },
           StoreWrite.fileUpdate fileId FileStatus.processed]
        trace := executed.1
        imagesUpdated := executed.2.1
        errors := errors
        finalStatus := finalStatus }

/-! ## Template Builder (create-operation endpoint) -/

/-- The persisted Operation record (interface `ImageUpdateOperation`). -/
structure ImageUpdateOperation where
  operationId : String
  timestamp : String
  shopDomain : String
  userId : String
  userName : String
  collectionId : String
  collectionName : String
  beforeSnapshotS3Key : String
  afterSnapshotS3Key : String
  status : OpStatus
  productsCount : Nat
  imagesUpdated : Nat
  errorMessage : Option String := none
deriving DecidableEq, Repr

/-- `product.images[0]?.id || ''`. -/
def headImageId (images : List ProductImage) : String :=
  match images with
  | [] => ""
  | img :: _ => img.id

/-- The template rows emitted by the create-operation endpoint: for each
fetched product that is selected and has at least one image, one row
carrying the first image's identifier followed by four rows with empty
`current_image_id`; every `new_image_url` is left empty. -/
def buildTemplateRows (collectionName : String) (product_ids : List String)
    (products : List Product) : List ImageUpdateCSVRow :=
  products.flatMap (fun product =>
    if product_ids.contains product.id ∧ product.images.length > 0 then
      { product_id := product.id
        product_handle := product.handle
        current_image_id := headImageId product.images
        collection_name := collectionName
        new_image_url := "" } ::
      List.replicate 4
        { product_id := product.id
          product_handle := product.handle
          current_image_id := ""
          collection_name := collectionName
          new_image_url := "" }
    else [])

/-- The create-operation endpoint after the collection and its products
have been fetched: the emitted template rows, the encoded CSV content, and
the created Operation record (status `pending`, `productsCount` = emitted
row count, `imagesUpdated` = 0). -/
def createOperation (operationId timestamp collection_id collectionName : String)
    (product_ids : List String) (products : List Product) :
    List ImageUpdateCSVRow × String × ImageUpdateOperation :=
  let csvData := buildTemplateRows collectionName product_ids products
  (csvData, encodeCSV csvData,
    { operationId := operationId
      timestamp := timestamp
      shopDomain := "don-stefani-demo-store.myshopify.com"
      userId := "default-user"
      userName := "Default User"
      collectionId := collection_id
      collectionName := collectionName
      beforeSnapshotS3Key := "operations/" ++ operationId ++ "/before-snapshot.json"
      afterSnapshotS3Key := "operations/" ++ operationId ++ "/after-snapshot.json"
      status := OpStatus.pending
      productsCount := csvData.length
      imagesUpdated := 0 })

/-! ## Upload Ingestor (upload endpoint, plain-text path) -/

/-- The stored CSV file metadata (interface `CSVFileRecord`), fields the
ingestor computes from its input (identifiers, timestamps, S3 data are
supplied by collaborators and elided). -/
structure CSVFileMeta where
  fileType : String
  recordCount : Nat
  status : FileStatus
deriving DecidableEq, Repr

/-- Observable outcome of an upload-endpoint call. -/
structure UploadResult where
  success : Bool
  message : String
  recordsProcessed : Nat
  storedContent : String
  fileRecord : CSVFileMeta
deriving DecidableEq, Repr

/-- The upload endpoint for a non-base64 (plain text) body: an empty body
is rejected (`No file uploaded`), otherwise the whole body is the CSV
content; the record count is `Math.max(0, nonBlankLines - 1)` (Nat
subtraction), the content is stored unchanged, and a `pending` upload file
record is persisted.  The base64 multipart path is not modelled here. -/
def ingestUploadPlain (body : String) : Except String UploadResult :=
  if body = "" then
    Except.error "No file uploaded"
  else
    let csvContent := body
    let recordCount := (splitNonBlankLines csvContent).length - 1
    Except.ok
      { success := true
        message := "CSV uploaded successfully"
        recordsProcessed := recordCount
        storedContent := csvContent
        fileRecord :=
          { fileType := "upload"
            recordCount := recordCount
            status := FileStatus.pending } }

/-! ## Record store: `updateImageUpdateOperation` (DynamoDBService) -/

/-- A stored DynamoDB item of the image-history table: the key plus the
attributes it happens to carry (every non-key attribute may be absent).
The optional `csvData` attribute of the interface is never written by the
handler and is elided. -/
structure OperationItem where
  operationId : String
  timestamp : Option String := none
  shopDomain : Option String := none
  userId : Option String := none
  userName : Option String := none
  collectionId : Option String := none
  collectionName : Option String := none
  beforeSnapshotS3Key : Option String := none
  afterSnapshotS3Key : Option String := none
  status : Option OpStatus := none
  productsCount : Option Nat := none
  imagesUpdated : Option Nat := none
  errorMessage : Option String := none
deriving DecidableEq, Repr

/-- A `Partial<ImageUpdateOperation>` argument: `none` models an
absent/`undefined` property. -/
structure OperationUpdates where
  timestamp : Option String := none
  shopDomain : Option String := none
  userId : Option String := none
  userName : Option String := none
  collectionId : Option String := none
  collectionName : Option String := none
  beforeSnapshotS3Key : Option String := none
  afterSnapshotS3Key : Option String := none
  status : Option OpStatus := none
  productsCount : Option Nat := none
  imagesUpdated : Option Nat := none
  errorMessage : Option String := none
deriving DecidableEq, Repr

/-- The number of defined entries of the partial update — the length of the
`updateExpression` array the function builds (and then leaves unused). -/
def definedFieldCount (u : OperationUpdates) : Nat :=
  (if u.timestamp.isSome then 1 else 0) +
  (if u.shopDomain.isSome then 1 else 0) +
  (if u.userId.isSome then 1 else 0) +
  (if u.userName.isSome then 1 else 0) +
  (if u.collectionId.isSome then 1 else 0) +
  (if u.collectionName.isSome then 1 else 0) +
  (if u.beforeSnapshotS3Key.isSome then 1 else 0) +
  (if u.afterSnapshotS3Key.isSome then 1 else 0) +
  (if u.status.isSome then 1 else 0) +
  (if u.productsCount.isSome then 1 else 0) +
  (if u.imagesUpdated.isSome then 1 else 0) +
  (if u.errorMessage.isSome then 1 else 0)

/-- The item `{ operationId, ...updates }` sent in the `PutCommand`. -/
def itemOfUpdates (operationId : String) (u : OperationUpdates) : OperationItem :=
  { operationId := operationId
    timestamp := u.timestamp
    shopDomain := u.shopDomain
    userId := u.userId
    userName := u.userName
    collectionId := u.collectionId
    collectionName := u.collectionName
    beforeSnapshotS3Key := u.beforeSnapshotS3Key
    afterSnapshotS3Key := u.afterSnapshotS3Key
    status := u.status
    productsCount := u.productsCount
    imagesUpdated := u.imagesUpdated
    errorMessage := u.errorMessage }

/-- `updateImageUpdateOperation(operationId, updates)` acting on the table
(a key-to-item map): when no field of the partial update is defined the
call returns early; otherwise it sends a `PutCommand` whose `Item` is
`{ operationId, ...updates }`, which stores that item under the key. -/
def updateImageUpdateOperation (store : String → Option OperationItem)
    (operationId : String) (u : OperationUpdates) : String → Option OperationItem :=
  if definedFieldCount u = 0 then store
  else fun k => if k = operationId then some (itemOfUpdates operationId u) else store k

/-! ## Shared concrete instances -/

def sampleProduct : Product :=
  { id := "p1", handle := "h1", images := [{ id := "img1" }],
    variants := [{ id := "v1", image_id := "img1" }] }

/-- A catalog oracle on which every call succeeds. -/
def okCatalog : Catalog :=
  { getProduct := fun _ => Except.ok sampleProduct
    uploadImage := fun _ _ _ => Except.ok "newimg"
    updateVariantImage := fun _ _ => Except.ok ()
    deleteImage := fun _ _ => Except.ok () }

/-- An upload CSV whose only data row carries a malformed URL. -/
def c1BadCSV : String := csvHeader ++ "\np1,h1,img1,Coll,not-a-url"

def c1BadRow : ImageUpdateCSVRow :=
  { product_id := "p1", product_handle := "h1", current_image_id := "img1",
    collection_name := "Coll", new_image_url := "not-a-url" }

def c1BadResult : ProcessResult :=
  { writes :=
      [StoreWrite.opUpdate { status := OpStatus.processing },
       StoreWrite.opUpdate
         { status := OpStatus.failed
           imagesUpdated := some 0
           errorMessage := some "Skipping product p1: Invalid image URL \"not-a-url\"" },
       StoreWrite.fileUpdate "f1" FileStatus.processed]
    trace := []
    imagesUpdated := 0
    errors := ["Skipping product p1: Invalid image URL \"not-a-url\""]
    finalStatus := OpStatus.failed }

/-! ## C1 — final status versus error kinds -/

/-- C1 counterexample: on an upload whose only row has an invalid URL, the
run decodes one row, forms zero product groups, issues zero catalog calls
(so no per-product mutation error can have occurred), and still ends with
final status `failed`. -/
theorem c1_counterexample :
    decodeCSV c1BadCSV = Except.ok [c1BadRow] ∧
    processOperation okCatalog "f1" c1BadCSV = Except.ok c1BadResult ∧
    c1BadResult.finalStatus = OpStatus.failed ∧
    c1BadResult.trace = [] ∧
    (groupRows [c1BadRow]).1 = [] ∧
    (processGroups okCatalog (groupRows [c1BadRow]).1).2.2 = [] :=
  ⟨rfl, rfl, rfl, rfl, rfl, rfl⟩

/-- C1 (amended): for every execution of `processOperation` that returns a
result, the final status is `failed` iff the execution's error list — the
per-row invalid-URL errors together with the per-product mutation errors —
is non-empty, and `completed` otherwise. -/
theorem c1_final_status_iff_error_list (cat : Catalog) (fileId csvContent : String)
    (r : ProcessResult) (h : processOperation cat fileId csvContent = Except.ok r) :
    (r.finalStatus = OpStatus.failed ↔ r.errors ≠ []) ∧
    r.errors = (groupRows ((decodeCSV csvContent).toOption.getD [])).2 ++
      (processGroups cat (groupRows ((decodeCSV csvContent).toOption.getD [])).1).2.2 := by
  unfold processOperation at h
  cases hd : decodeCSV csvContent with
  | error e =>
    rw [hd] at h
    exact absurd h (by simp)
  | ok rows =>
    rw [hd] at h
    injection h with h'
    subst h'
    refine ⟨?_, rfl⟩
    dsimp only
    by_cases he :
        (groupRows rows).2 ++ (processGroups cat (groupRows rows).1).2.2 = []
    · rw [he]
      simp
    · rw [if_neg (by simpa [List.length_eq_zero] using he)]
      simp [he]

/-- Witness for C1: the amended equivalence instantiated on a concrete run. -/
theorem c1_witness :
    processOperation okCatalog "f1" c1BadCSV = Except.ok c1BadResult ∧
    ((c1BadResult.finalStatus = OpStatus.failed ↔ c1BadResult.errors ≠ []) ∧
      c1BadResult.errors = (groupRows ((decodeCSV c1BadCSV).toOption.getD [])).2 ++
        (processGroups okCatalog
          (groupRows ((decodeCSV c1BadCSV).toOption.getD [])).1).2.2) :=
  ⟨rfl, c1_final_status_iff_error_list okCatalog "f1" c1BadCSV c1BadResult rfl⟩

/-! ## C2 — `updateImageUpdateOperation` is a replace, not a merge -/

/-- A fully populated stored Operation item. -/
def c2Before : OperationItem :=
  { operationId := "op1"
    timestamp := some "2024-01-01T00:00:00.000Z"
    shopDomain := some "don-stefani-demo-store.myshopify.com"
    userId := some "default-user"
    userName := some "Default User"
    collectionId := some "c1"
    collectionName := some "Coll"
    beforeSnapshotS3Key := some "operations/op1/before-snapshot.json"
    afterSnapshotS3Key := some "operations/op1/after-snapshot.json"
    status := some OpStatus.pending
    productsCount := some 5
    imagesUpdated := some 0 }

def c2Store : String → Option OperationItem :=
  fun k => if k = "op1" then some c2Before else none

/-- C2 (code evaluation): a partial update that sets only `status` sends a
`PutCommand` whose item is `{ operationId, ...updates }`, so the stored
record afterwards carries only the key and the status — `timestamp`,
`productsCount` and every other previously-set field are gone, although
they were set before the update.  The merge the claim requires does not
happen. -/
theorem c2_partial_update_replaces_record :
    updateImageUpdateOperation c2Store "op1"
        { status := some OpStatus.processing } "op1" =
      some { operationId := "op1", status := some OpStatus.processing } ∧
    c2Before.productsCount = some 5 ∧
    c2Before.timestamp = some "2024-01-01T00:00:00.000Z" ∧
    (updateImageUpdateOperation c2Store "op1"
        { status := some OpStatus.processing } "op1").map
      (fun item => (item.productsCount, item.timestamp)) = some (none, none) :=
  ⟨rfl, rfl, rfl, rfl⟩

/-! ## C8 — empty and header-only inputs -/

/-- C8 counterexample: decoding the empty input is the hard error, not an
empty row list — an empty input has zero lines after blank-line filtering,
so the two behaviours the claim ascribes to it contradict each other and
the code takes the error branch. -/
theorem c8_counterexample :
    decodeCSV "" = Except.error "CSV file is empty" ∧
    decodeCSV "" ≠ Except.ok [] :=
  ⟨rfl, fun h => nomatch h⟩

/-- C8 (amended): decoding a header-only input yields zero rows with no
error, while decoding any text with zero lines after blank-line filtering —
the empty input included — is the hard error `CSV file is empty`. -/
theorem c8_empty_and_header_handling :
    decodeCSV csvHeader = Except.ok [] ∧
    ∀ s : String, (splitNonBlankLines s).length = 0 →
      decodeCSV s = Except.error "CSV file is empty" := by
  refine ⟨rfl, ?_⟩
  intro s h
  unfold decodeCSV
  simp [h]

/-- Witness for C8: the general error branch instantiated on a
whitespace-only input. -/
theorem c8_witness :
    (splitNonBlankLines "  \n ").length = 0 ∧
    decodeCSV "  \n " = Except.error "CSV file is empty" :=
  ⟨rfl, c8_empty_and_header_handling.2 "  \n " rfl⟩

/-! ## C9 — the upload file record is always marked `processed` -/

/-- C9: every run of `processOperation` that completes all product groups
ends by setting the upload file record's status to the literal
`processed`, whether the operation's final status is `completed` or
`failed`. -/
theorem c9_upload_file_marked_processed (cat : Catalog) (fileId csvContent : String)
    (r : ProcessResult) (h : processOperation cat fileId csvContent = Except.ok r) :
    r.writes.getLast? = some (StoreWrite.fileUpdate fileId FileStatus.processed) ∧
    (r.finalStatus = OpStatus.completed ∨ r.finalStatus = OpStatus.failed) := by
  unfold processOperation at h
  cases hd : decodeCSV csvContent with
  | error e =>
    rw [hd] at h
    exact absurd h (by simp)
  | ok rows =>
    rw [hd] at h
    injection h with h'
    subst h'
    refine ⟨rfl, ?_⟩
    dsimp only
    by_cases he :
        ((groupRows rows).2 ++ (processGroups cat (groupRows rows).1).2.2).length = 0
    · exact Or.inl (by rw [if_pos he])
    · exact Or.inr (by rw [if_neg he])

/-- A single-row upload CSV whose run succeeds end to end. -/
def sampleGoodCSV : String := csvHeader ++ "\np1,h1,img1,Coll,https://example.com/a.jpg"

def c9Result : ProcessResult :=
  { writes :=
      [StoreWrite.opUpdate { status := OpStatus.processing },
       StoreWrite.opUpdate
         { status := OpStatus.completed, imagesUpdated := some 1, errorMessage := none },
       StoreWrite.fileUpdate "f9" FileStatus.processed]
    trace :=
      [CatalogCall.getProduct "p1",
       CatalogCall.uploadImage "p1" "https://example.com/a.jpg" 1,
       CatalogCall.updateVariantImage "v1" "newimg",
       CatalogCall.deleteImage "img1" "p1"]
    imagesUpdated := 1
    errors := []
    finalStatus := OpStatus.completed }

/-- Witness for C9: the guarantee instantiated on a concrete successful
run. -/
theorem c9_witness :
    processOperation okCatalog "f9" sampleGoodCSV = Except.ok c9Result ∧
    (c9Result.writes.getLast? =
        some (StoreWrite.fileUpdate "f9" FileStatus.processed) ∧
      (c9Result.finalStatus = OpStatus.completed ∨
        c9Result.finalStatus = OpStatus.failed)) :=
  ⟨rfl, c9_upload_file_marked_processed okCatalog "f9" sampleGoodCSV c9Result rfl⟩

/-! ## C10 — the upload endpoint accepts near-empty plain-text bodies -/

/-- C10: a non-empty plain-text body with at most one non-blank line is
accepted: the call succeeds with `recordsProcessed = 0` (the record count
is `max(0, nonBlankLines - 1)`), the body is stored unchanged, and a
`pending` upload file record is persisted — the `CSV file is empty`
rejection can only happen later, in `processOperation`. -/
theorem c10_ingest_small_body (body : String) (h1 : body ≠ "")
    (h2 : (splitNonBlankLines body).length ≤ 1) :
    ingestUploadPlain body = Except.ok
      { success := true
        message := "CSV uploaded successfully"
        recordsProcessed := 0
        storedContent := body
        fileRecord :=
          { fileType := "upload", recordCount := 0, status := FileStatus.pending } } := by
  unfold ingestUploadPlain
  rw [if_neg h1]
  simp only []
  rw [Nat.sub_eq_zero_of_le h2]

/-- Witness for C10: the header-only body. -/
theorem c10_witness :
    (csvHeader ≠ "" ∧ (splitNonBlankLines csvHeader).length ≤ 1) ∧
    ingestUploadPlain csvHeader = Except.ok
      { success := true
        message := "CSV uploaded successfully"
        recordsProcessed := 0
        storedContent := csvHeader
        fileRecord :=
          { fileType := "upload", recordCount := 0, status := FileStatus.pending } } :=
  ⟨⟨by decide, by decide⟩,
    c10_ingest_small_body csvHeader (by decide) (by decide)⟩

/-! ## C3 — per-product failure isolation -/

/-- C3: the executor's loop is a homomorphism over the group list — every
group is processed independently; the error list has exactly one entry per
failed group, of the form `Failed to update product <id>: <detail>` naming
that group's product id, in group order; `imagesUpdated` is the sum of the
per-group counts (so it reflects all successful uploads of the other
groups); and the trace is the concatenation of the per-group traces. -/
theorem c3_per_product_failure_isolation (cat : Catalog)
    (groups : List (String × List ImageUpdateCSVRow)) :
    (processGroups cat groups).2.2 =
      groups.filterMap (fun g =>
        ((processGroup cat g.1 g.2).2.2).map
          (fun e => "Failed to update product " ++ g.1 ++ ": " ++ e)) ∧
    (processGroups cat groups).2.1 =
      (groups.map (fun g => (processGroup cat g.1 g.2).2.1)).sum ∧
    (processGroups cat groups).1 =
      (groups.map (fun g => (processGroup cat g.1 g.2).1)).flatten := by
  induction groups with
  | nil => exact ⟨rfl, rfl, rfl⟩
  | cons g rest ih =>
    obtain ⟨ih1, ih2, ih3⟩ := ih
    cases herr : (processGroup cat g.1 g.2).2.2 with
    | none =>
      exact ⟨by simp [processGroups, herr, ih1, List.filterMap_cons],
        by simp [processGroups, herr, ih2],
        by simp [processGroups, herr, ih3]⟩
    | some e =>
      exact ⟨by simp [processGroups, herr, ih1, List.filterMap_cons],
        by simp [processGroups, herr, ih2],
        by simp [processGroups, herr, ih3]⟩

/-! ## Success-path characterisation of the row loop (helpers for C4, C5) -/

theorem uploadCalls_append (a b : List CatalogCall) :
    uploadCalls (a ++ b) = uploadCalls a ++ uploadCalls b := by
  simp [uploadCalls]

theorem uploadCalls_cons_upload (p u : String) (n : Nat) (t : List CatalogCall) :
    uploadCalls (CatalogCall.uploadImage p u n :: t) =
      CatalogCall.uploadImage p u n :: uploadCalls t := by
  simp [uploadCalls, List.filter_cons, isUploadCall]

theorem uploadCalls_cons_nonupload (c : CatalogCall) (t : List CatalogCall)
    (h : isUploadCall c = false) : uploadCalls (c :: t) = uploadCalls t := by
  simp [uploadCalls, List.filter_cons, h]

theorem updateVariants_ok (cat : Catalog) (vs : List Variant) (cur ni : String)
    (hv : ∀ v im, cat.updateVariantImage v im = Except.ok ()) :
    (updateVariants cat vs cur ni).2 = none ∧
    uploadCalls (updateVariants cat vs cur ni).1 = [] := by
  induction vs with
  | nil => exact ⟨rfl, rfl⟩
  | cons v vs ih =>
    by_cases h : v.image_id = cur
    · constructor
      · simp only [updateVariants]
        rw [if_pos h, hv v.id ni]
        exact ih.1
      · simp only [updateVariants]
        rw [if_pos h, hv v.id ni]
        show uploadCalls (CatalogCall.updateVariantImage v.id ni ::
          (updateVariants cat vs cur ni).1) = []
        rw [uploadCalls_cons_nonupload (CatalogCall.updateVariantImage v.id ni) _ rfl]
        exact ih.2
    · constructor
      · simp only [updateVariants]
        rw [if_neg h]
        exact ih.1
      · simp only [updateVariants]
        rw [if_neg h]
        exact ih.2

theorem uploadCalls_deleteImages (pid : String) (ds : List String) :
    uploadCalls (deleteImages pid ds) = [] := by
  induction ds with
  | nil => rfl
  | cons d ds ih =>
    simp only [deleteImages]
    rw [uploadCalls_cons_nonupload (CatalogCall.deleteImage d pid) _ rfl]
    exact ih

/-- When every upload and variant re-point succeeds, the row loop never
errors, its upload calls are exactly `acceptedUploads`, and the count
increases by one per accepted upload. -/
theorem processRows_ok (cat : Catalog) (pid : String) (variants : List Variant)
    (hu : ∀ p u n, ∃ id, cat.uploadImage p u n = Except.ok id)
    (hv : ∀ v im, cat.updateVariantImage v im = Except.ok ()) :
    ∀ (rows : List ImageUpdateCSVRow) (i : Nat) (processed dels : List String) (count : Nat),
      (processRows cat pid variants rows i processed dels count).2.2.2 = none ∧
      uploadCalls (processRows cat pid variants rows i processed dels count).1 =
        acceptedUploads pid rows i processed ∧
      (processRows cat pid variants rows i processed dels count).2.2.1 =
        count + (acceptedUploads pid rows i processed).length := by
  intro rows
  induction rows with
  | nil =>
    intro i processed dels count
    exact ⟨rfl, rfl, rfl⟩
  | cons row rest ih =>
    intro i processed dels count
    simp only [processRows, acceptedUploads]
    by_cases hc : processed.contains row.new_image_url
    · rw [if_pos hc, if_pos hc]
      exact ih (i + 1) processed dels count
    · rw [if_neg hc, if_neg hc]
      obtain ⟨id, hid⟩ := hu pid row.new_image_url (i + 1)
      rw [hid]
      have hvv := updateVariants_ok cat variants row.current_image_id id hv
      have hv2 : (if i = 0 ∧ row.current_image_id ≠ "" then
          updateVariants cat variants row.current_image_id id
        else ([], none)).2 = none := by
        split
        · exact hvv.1
        · rfl
      have hvup : uploadCalls (if i = 0 ∧ row.current_image_id ≠ "" then
          updateVariants cat variants row.current_image_id id
        else ([], none)).1 = [] := by
        split
        · exact hvv.2
        · rfl
      simp only []
      rw [hv2]
      obtain ⟨h1, h2, h3⟩ := ih (i + 1) (processed ++ [row.new_image_url])
        (if row.current_image_id ≠ "" then
          (if dels.contains row.current_image_id then dels
           else dels ++ [row.current_image_id])
         else dels) (count + 1)
      refine ⟨h1, ?_, ?_⟩
      · show uploadCalls (CatalogCall.uploadImage pid row.new_image_url (i + 1) ::
          ((if i = 0 ∧ row.current_image_id ≠ "" then
              updateVariants cat variants row.current_image_id id
            else ([], none)).1 ++ _)) = _
        rw [uploadCalls_cons_upload, uploadCalls_append, hvup, h2, List.nil_append]
      · show (processRows cat pid variants rest (i + 1) (processed ++ [row.new_image_url])
            _ (count + 1)).2.2.1 = _
        rw [h3, List.length_cons]
        omega

/-- When the product fetch and every mutation succeed, a group's
processing never errors, its upload calls are `acceptedUploads` from index
0, and its count is the number of accepted uploads. -/
theorem processGroup_ok (cat : Catalog) (pid : String)
    (rows : List ImageUpdateCSVRow) (prod : Product)
    (hg : cat.getProduct pid = Except.ok prod)
    (hu : ∀ p u n, ∃ id, cat.uploadImage p u n = Except.ok id)
    (hv : ∀ v im, cat.updateVariantImage v im = Except.ok ()) :
    (processGroup cat pid rows).2.2 = none ∧
    uploadCalls (processGroup cat pid rows).1 = acceptedUploads pid rows 0 [] ∧
    (processGroup cat pid rows).2.1 = (acceptedUploads pid rows 0 []).length := by
  obtain ⟨h1, h2, h3⟩ := processRows_ok cat pid prod.variants hu hv rows 0 [] [] 0
  refine ⟨?_, ?_, ?_⟩
  · simp only [processGroup]
    rw [hg]
    simp only []
    rw [h1]
  · simp only [processGroup]
    rw [hg]
    simp only []
    rw [h1]
    show uploadCalls (CatalogCall.getProduct pid ::
      ((processRows cat pid prod.variants rows 0 [] [] 0).1 ++
        deleteImages pid (processRows cat pid prod.variants rows 0 [] [] 0).2.1)) = _
    rw [uploadCalls_cons_nonupload (CatalogCall.getProduct pid) _ rfl, uploadCalls_append,
      h2, uploadCalls_deleteImages, List.append_nil]
  · simp only [processGroup]
    rw [hg]
    simp only []
    rw [h1]
    exact h3.trans (Nat.zero_add _)

theorem acceptedUploads_pos_gt (pid : String) :
    ∀ (rows : List ImageUpdateCSVRow) (i : Nat) (seen : List String),
      ∀ c ∈ acceptedUploads pid rows i seen, i < callPosition c := by
  intro rows
  induction rows with
  | nil =>
    intro i seen c hc
    simp [acceptedUploads] at hc
  | cons row rest ih =>
    intro i seen c hc
    simp only [acceptedUploads] at hc
    by_cases h : seen.contains row.new_image_url
    · rw [if_pos h] at hc
      exact Nat.lt_of_succ_lt (ih (i + 1) seen c hc)
    · rw [if_neg h] at hc
      rcases List.mem_cons.mp hc with h1 | h1
      · subst h1
        exact Nat.lt_succ_self i
      · exact Nat.lt_of_succ_lt (ih (i + 1) _ c h1)

theorem acceptedUploads_pos_sorted (pid : String) :
    ∀ (rows : List ImageUpdateCSVRow) (i : Nat) (seen : List String),
      ((acceptedUploads pid rows i seen).map callPosition).Pairwise (· < ·) := by
  intro rows
  induction rows with
  | nil =>
    intro i seen
    simp [acceptedUploads]
  | cons row rest ih =>
    intro i seen
    simp only [acceptedUploads]
    by_cases h : seen.contains row.new_image_url
    · rw [if_pos h]
      exact ih (i + 1) seen
    · rw [if_neg h]
      rw [List.map_cons]
      refine List.Pairwise.cons ?_ (ih (i + 1) _)
      intro x hx
      rcases List.mem_map.mp hx with ⟨c, hc, rfl⟩
      have hgt := acceptedUploads_pos_gt pid rest (i + 1) _ c hc
      exact Nat.lt_of_succ_le (Nat.succ_le_of_lt hgt)

/-! ## C4 — placement positions of uploaded rows -/

def c4RowA : ImageUpdateCSVRow :=
  { product_id := "p1", product_handle := "h1", current_image_id := "",
    collection_name := "Coll", new_image_url := "https://example.com/a.jpg" }

def c4RowB : ImageUpdateCSVRow :=
  { product_id := "p1", product_handle := "h1", current_image_id := "",
    collection_name := "Coll", new_image_url := "https://example.com/b.jpg" }

/-- C4 counterexample: in the group `[a, a, b]` the duplicate `a` row is
skipped, and the second actually-uploaded row (`b`, the group's third row)
is uploaded at position 3 — not at the consecutive position 2 the claim
requires. -/
theorem c4_counterexample :
    uploadCalls (processGroup okCatalog "p1" [c4RowA, c4RowA, c4RowB]).1 =
      [CatalogCall.uploadImage "p1" "https://example.com/a.jpg" 1,
       CatalogCall.uploadImage "p1" "https://example.com/b.jpg" 3] ∧
    uploadCalls (processGroup okCatalog "p1" [c4RowA, c4RowA, c4RowB]).1 ≠
      [CatalogCall.uploadImage "p1" "https://example.com/a.jpg" 1,
       CatalogCall.uploadImage "p1" "https://example.com/b.jpg" 2] :=
  ⟨rfl, by decide⟩

/-- C4 (amended): when the product fetch and every mutation succeed, the
accepted rows of a group are uploaded in their relative CSV order, and
each uploaded row receives position `index + 1` where `index` is the row's
0-based index within the group's full row list (`acceptedUploads`); the
positions are strictly increasing but skip the indices of deduplicated
rows instead of being consecutive. -/
theorem c4_upload_positions (cat : Catalog) (pid : String)
    (rows : List ImageUpdateCSVRow) (prod : Product)
    (hg : cat.getProduct pid = Except.ok prod)
    (hu : ∀ p u n, ∃ id, cat.uploadImage p u n = Except.ok id)
    (hv : ∀ v im, cat.updateVariantImage v im = Except.ok ()) :
    uploadCalls (processGroup cat pid rows).1 = acceptedUploads pid rows 0 [] ∧
    ((uploadCalls (processGroup cat pid rows).1).map callPosition).Pairwise (· < ·) := by
  obtain ⟨h1, h2, h3⟩ := processGroup_ok cat pid rows prod hg hu hv
  refine ⟨h2, ?_⟩
  rw [h2]
  exact acceptedUploads_pos_sorted pid rows 0 []

/-- Witness for C4: the amended statement on the `[a, a, b]` group. -/
theorem c4_witness :
    okCatalog.getProduct "p1" = Except.ok sampleProduct ∧
    (uploadCalls (processGroup okCatalog "p1" [c4RowA, c4RowA, c4RowB]).1 =
        acceptedUploads "p1" [c4RowA, c4RowA, c4RowB] 0 [] ∧
      ((uploadCalls (processGroup okCatalog "p1" [c4RowA, c4RowA, c4RowB]).1).map
          callPosition).Pairwise (· < ·)) :=
  ⟨rfl, c4_upload_positions okCatalog "p1" [c4RowA, c4RowA, c4RowB] sampleProduct rfl
    (fun _ _ _ => ⟨"newimg", rfl⟩) (fun _ _ => rfl)⟩

/-! ## C5 — duplicate-URL rows are uploaded once -/

/-- C5: a group of two rows with the same product and identical non-empty
URL issues exactly one `uploadImage` call, increments `imagesUpdated`
exactly once, and the skipped duplicate contributes no error entry. -/
theorem c5_duplicate_url_single_upload (cat : Catalog) (pid : String)
    (prod : Product) (r1 r2 : ImageUpdateCSVRow)
    (hg : cat.getProduct pid = Except.ok prod)
    (hu : ∀ p u n, ∃ id, cat.uploadImage p u n = Except.ok id)
    (hv : ∀ v im, cat.updateVariantImage v im = Except.ok ())
    (hdup : r2.new_image_url = r1.new_image_url)
    (_hne : r1.new_image_url ≠ "") :
    uploadCalls (processGroup cat pid [r1, r2]).1 =
      [CatalogCall.uploadImage pid r1.new_image_url 1] ∧
    (processGroup cat pid [r1, r2]).2.1 = 1 ∧
    (processGroup cat pid [r1, r2]).2.2 = none := by
  obtain ⟨h1, h2, h3⟩ := processGroup_ok cat pid [r1, r2] prod hg hu hv
  have ha : acceptedUploads pid [r1, r2] 0 [] =
      [CatalogCall.uploadImage pid r1.new_image_url 1] := by
    simp only [acceptedUploads]
    rw [if_neg (by simp), if_pos (by simp [hdup])]
  refine ⟨h2.trans ha, ?_, h1⟩
  rw [h3, ha]
  rfl

/-- Witness for C5: a concrete duplicate pair under the all-success
catalog. -/
theorem c5_witness :
    (okCatalog.getProduct "p1" = Except.ok sampleProduct ∧
      c4RowA.new_image_url = c4RowA.new_image_url ∧
      c4RowA.new_image_url ≠ "") ∧
    (uploadCalls (processGroup okCatalog "p1" [c4RowA, c4RowA]).1 =
        [CatalogCall.uploadImage "p1" c4RowA.new_image_url 1] ∧
      (processGroup okCatalog "p1" [c4RowA, c4RowA]).2.1 = 1 ∧
      (processGroup okCatalog "p1" [c4RowA, c4RowA]).2.2 = none) :=
  ⟨⟨rfl, rfl, by decide⟩,
    c5_duplicate_url_single_upload okCatalog "p1" sampleProduct c4RowA c4RowA rfl
      (fun _ _ _ => ⟨"newimg", rfl⟩) (fun _ _ => rfl) rfl (by decide)⟩

/-! ## C6 — template row shape and the created Operation -/

/-- Selection predicate of the template loop: the product is among the
requested ids and has at least one image. -/
def selectedWithImages (product_ids : List String) (p : Product) : Bool :=
  decide (product_ids.contains p.id ∧ p.images.length > 0)

/-- The five-row block the claim describes for one contributing product:
one row whose `current_image_id` is the product's first image identifier
and whose URL is empty, then four rows with empty `current_image_id` and
empty URL. -/
def templateBlock (collectionName : String) (p : Product) : List ImageUpdateCSVRow :=
  { product_id := p.id, product_handle := p.handle,
    current_image_id := headImageId p.images,
    collection_name := collectionName, new_image_url := "" } ::
  List.replicate 4
    { product_id := p.id, product_handle := p.handle, current_image_id := "",
      collection_name := collectionName, new_image_url := "" }

theorem buildTemplateRows_eq_blocks (collectionName : String)
    (product_ids : List String) (products : List Product) :
    buildTemplateRows collectionName product_ids products =
      (products.filter (selectedWithImages product_ids)).flatMap
        (templateBlock collectionName) := by
  induction products with
  | nil => rfl
  | cons p ps ih =>
    by_cases h : p.id ∈ product_ids ∧ 0 < p.images.length
    · simp [buildTemplateRows, List.filter_cons, selectedWithImages, h.1, h.2,
        templateBlock] at ih ⊢
      exact ih
    · simp [buildTemplateRows, List.filter_cons, selectedWithImages, h,
        templateBlock] at ih ⊢
      exact ih

theorem templateBlocks_length (collectionName : String) (l : List Product) :
    (l.flatMap (templateBlock collectionName)).length = 5 * l.length := by
  induction l with
  | nil => rfl
  | cons p ps ih =>
    simp only [List.flatMap_cons, List.length_append, ih, List.length_cons]
    simp [templateBlock, Nat.mul_succ]
    omega

/-- C6: the Template Builder emits exactly the five-row block for every
fetched product that is selected and has at least one image — so `5 × N`
rows for `N` such products and zero rows for selected products without
images — and the created Operation has `productsCount` equal to the
emitted row count, `imagesUpdated = 0`, and status `pending`. -/
theorem c6_template_rows_and_operation
    (operationId timestamp collection_id collectionName : String)
    (product_ids : List String) (products : List Product) :
    (createOperation operationId timestamp collection_id collectionName
        product_ids products).1 =
      (products.filter (selectedWithImages product_ids)).flatMap
        (templateBlock collectionName) ∧
    (createOperation operationId timestamp collection_id collectionName
        product_ids products).1.length =
      5 * (products.filter (selectedWithImages product_ids)).length ∧
    (createOperation operationId timestamp collection_id collectionName
        product_ids products).2.2.productsCount =
      (createOperation operationId timestamp collection_id collectionName
        product_ids products).1.length ∧
    (createOperation operationId timestamp collection_id collectionName
        product_ids products).2.2.imagesUpdated = 0 ∧
    (createOperation operationId timestamp collection_id collectionName
        product_ids products).2.2.status = OpStatus.pending := by
  refine ⟨?_, ?_, rfl, rfl, rfl⟩
  · exact buildTemplateRows_eq_blocks collectionName product_ids products
  · show (buildTemplateRows collectionName product_ids products).length = _
    rw [buildTemplateRows_eq_blocks, templateBlocks_length]

/-! ## C7 — CSV round-trip -/

/-- `join` on character lists, mirror of `joinSep`. -/
def joinChars (sep : List Char) : List (List Char) → List Char
  | [] => []
  | [g] => g
  | g :: gs => g ++ sep ++ joinChars sep gs

theorem joinSep_data (sep : String) (parts : List String) :
    (joinSep sep parts).data = joinChars sep.data (parts.map String.data) := by
  induction parts with
  | nil => rfl
  | cons p ps ih =>
    cases ps with
    | nil => rfl
    | cons q qs =>
      show (p ++ sep ++ joinSep sep (q :: qs)).data = _
      rw [String.data_append, String.data_append, ih]
      rfl

theorem splitChar_not_mem (c : Char) (g : List Char) (h : c ∉ g) :
    splitChar c g = [g] := by
  induction g with
  | nil => rfl
  | cons a as ih =>
    have hac : ¬(a = c) := fun hh => h (hh ▸ List.mem_cons_self a as)
    have hrec := ih (fun hm => h (List.mem_cons_of_mem a hm))
    simp [splitChar, hac, hrec]

theorem splitChar_append_cons (c : Char) (g rest : List Char) (h : c ∉ g) :
    splitChar c (g ++ c :: rest) = g :: splitChar c rest := by
  induction g with
  | nil => simp [splitChar]
  | cons a as ih =>
    have hac : ¬(a = c) := fun hh => h (hh ▸ List.mem_cons_self a as)
    have hrec := ih (fun hm => h (List.mem_cons_of_mem a hm))
    simp [splitChar, hac, hrec]

theorem splitChar_joinChars (c : Char) :
    ∀ (parts : List (List Char)), parts ≠ [] → (∀ p ∈ parts, c ∉ p) →
      splitChar c (joinChars [c] parts) = parts := by
  intro parts
  induction parts with
  | nil => intro h; exact absurd rfl h
  | cons g gs ih =>
    intro _ hmem
    cases gs with
    | nil => exact splitChar_not_mem c g (hmem g (List.mem_cons_self g []))
    | cons g2 gs2 =>
      have hjoin : joinChars [c] (g :: g2 :: gs2) =
          g ++ c :: joinChars [c] (g2 :: gs2) := by
        show (g ++ [c]) ++ joinChars [c] (g2 :: gs2) = _
        rw [List.append_assoc]
        rfl
      rw [hjoin, splitChar_append_cons c g _ (hmem g (List.mem_cons_self g _)),
        ih (by simp) (fun p hp => hmem p (List.mem_cons_of_mem g hp))]

theorem not_mem_joinChars (c : Char) (sep : List Char) (hsep : c ∉ sep) :
    ∀ (gs : List (List Char)), (∀ g ∈ gs, c ∉ g) → c ∉ joinChars sep gs := by
  intro gs
  induction gs with
  | nil => intro _ h; exact absurd h (List.not_mem_nil c)
  | cons g gs2 ih =>
    intro hmem
    cases gs2 with
    | nil => exact hmem g (List.mem_cons_self g [])
    | cons g2 gs3 =>
      intro hc
      rcases List.mem_append.mp hc with h1 | h1
      · rcases List.mem_append.mp h1 with h2 | h2
        · exact hmem g (List.mem_cons_self g _) h2
        · exact hsep h2
      · exact ih (fun g' hg' => hmem g' (List.mem_cons_of_mem g hg')) h1

theorem mem_dropWhile_of_mem {p : Char → Bool} {c : Char} (hc : p c = false) :
    ∀ l : List Char, c ∈ l → c ∈ l.dropWhile p := by
  intro l
  induction l with
  | nil => intro h; exact absurd h (List.not_mem_nil c)
  | cons a as ih =>
    intro hm
    rw [List.dropWhile_cons]
    by_cases hp : p a = true
    · rw [if_pos hp]
      rcases List.mem_cons.mp hm with rfl | hmm
      · rw [hp] at hc
        exact absurd hc (by simp)
      · exact ih hmm
    · rw [if_neg hp]
      exact hm

theorem mem_trimChars {c : Char} (hws : c.isWhitespace = false) (cs : List Char)
    (hm : c ∈ cs) : c ∈ trimChars cs := by
  unfold trimChars
  have h1 := mem_dropWhile_of_mem hws cs hm
  have h2 : c ∈ (cs.dropWhile Char.isWhitespace).reverse := List.mem_reverse.mpr h1
  have h3 := mem_dropWhile_of_mem hws _ h2
  exact List.mem_reverse.mpr h3

/-- A line containing a comma survives the blank-line filter. -/
theorem nonblank_of_mem_comma (line : String) (h : ',' ∈ line.data) :
    decide (0 < (jsTrim line).length) = true := by
  have hmem : ',' ∈ trimChars line.data := mem_trimChars (by decide) line.data h
  have hne : trimChars line.data ≠ [] := by
    intro hh
    rw [hh] at hmem
    exact List.not_mem_nil ',' hmem
  have : 0 < (trimChars line.data).length := List.length_pos.mpr hne
  simpa [jsTrim, String.length] using this

theorem comma_mem_encodeRow (row : ImageUpdateCSVRow) : ',' ∈ (encodeRow row).data := by
  rw [encodeRow, joinSep_data]
  show ',' ∈ joinChars (",".data) _
  simp [rowFields, joinChars]

theorem parseAux_field :
    ∀ (f : List Char), (∀ ch ∈ f, ch ≠ '"' ∧ ch ≠ ',') →
    ∀ (rest : List Char) (res : List String) (cur : List Char),
      parseCSVLineAux (f ++ rest) res cur false =
        parseCSVLineAux rest res (cur ++ f) false := by
  intro f
  induction f with
  | nil =>
    intro _ rest res cur
    rw [List.nil_append, List.append_nil]
  | cons a as ih =>
    intro h rest res cur
    have ha := h a (List.mem_cons_self a as)
    show parseCSVLineAux (a :: (as ++ rest)) res cur false = _
    simp only [parseCSVLineAux]
    rw [if_neg ha.1, if_neg (fun hc => ha.2 hc.1)]
    rw [ih (fun ch hm => h ch (List.mem_cons_of_mem a hm)) rest res (cur ++ [a])]
    rw [List.append_assoc]
    rfl

theorem parseAux_join :
    ∀ (ps : List (List Char)) (p : List Char),
      (∀ ch ∈ p, ch ≠ '"' ∧ ch ≠ ',') →
      (∀ q ∈ ps, ∀ ch ∈ q, ch ≠ '"' ∧ ch ≠ ',') →
      ∀ (res : List String) (cur : List Char),
        parseCSVLineAux (joinChars [','] (p :: ps)) res cur false =
          res ++ jsTrim (String.mk (cur ++ p)) ::
            ps.map (fun g => jsTrim (String.mk g)) := by
  intro ps
  induction ps with
  | nil =>
    intro p hp _ res cur
    have hfield := parseAux_field p hp [] res cur
    rw [List.append_nil] at hfield
    show parseCSVLineAux p res cur false = _
    rw [hfield]
    rfl
  | cons q qs ih =>
    intro p hp hqs res cur
    have hjoin : joinChars [','] (p :: q :: qs) =
        p ++ (',' :: joinChars [','] (q :: qs)) := by
      show (p ++ [',']) ++ joinChars [','] (q :: qs) = _
      rw [List.append_assoc]
      rfl
    rw [hjoin, parseAux_field p hp _ res cur]
    show parseCSVLineAux (',' :: joinChars [','] (q :: qs)) res (cur ++ p) false = _
    simp only [parseCSVLineAux]
    rw [if_neg (by decide), if_pos (And.intro trivial trivial)]
    rw [ih q (hqs q (List.mem_cons_self q qs))
      (fun g hg => hqs g (List.mem_cons_of_mem q hg))
      (res ++ [jsTrim (String.mk (cur ++ p))]) []]
    rw [List.append_assoc]
    rfl

/-- A field value that the codec round-trips verbatim: no quote, comma or
newline characters, and invariant under trimming. -/
def CleanField (f : String) : Prop :=
  (∀ ch ∈ f.data, ch ≠ '"' ∧ ch ≠ ',' ∧ ch ≠ '\n') ∧ jsTrim f = f

instance (f : String) : Decidable (CleanField f) := by
  unfold CleanField
  exact inferInstance

/-- A row all of whose five fields are clean. -/
def CleanRow (r : ImageUpdateCSVRow) : Prop :=
  ∀ f ∈ rowFields r, CleanField f

instance (r : ImageUpdateCSVRow) : Decidable (CleanRow r) := by
  unfold CleanRow
  exact inferInstance

theorem mk_data_map (l : List String) : (l.map String.data).map String.mk = l := by
  induction l with
  | nil => rfl
  | cons a as ih =>
    rw [List.map_cons, List.map_cons, ih]

theorem splitNewlines_encodeCSV (rows : List ImageUpdateCSVRow)
    (h : ∀ r ∈ rows, CleanRow r) :
    splitNewlines (encodeCSV rows) = csvHeader :: rows.map encodeRow := by
  unfold splitNewlines encodeCSV
  rw [joinSep_data]
  have hnl : ∀ p ∈ ((csvHeader :: rows.map encodeRow).map String.data), '\n' ∉ p := by
    intro p hp
    rcases List.mem_map.mp hp with ⟨line, hline, rfl⟩
    rcases List.mem_cons.mp hline with rfl | hline2
    · decide
    · rcases List.mem_map.mp hline2 with ⟨r, hr, rfl⟩
      rw [encodeRow, joinSep_data]
      refine not_mem_joinChars '\n' (",".data) (by decide) _ ?_
      intro g hg
      rcases List.mem_map.mp hg with ⟨f, hf, rfl⟩
      intro hch
      exact ((h r hr f hf).1 '\n' hch).2.2 rfl
  rw [show ("\n".data : List Char) = ['\n'] from rfl]
  rw [splitChar_joinChars '\n' _ (by simp) hnl]
  exact mk_data_map _

theorem rowOfValues_trim_fields (r : ImageUpdateCSVRow)
    (h : ∀ f ∈ rowFields r, jsTrim f = f) :
    rowOfValues ((rowFields r).map (fun f => jsTrim f)) = r := by
  have h1 := h r.product_id (by simp [rowFields])
  have h2 := h r.product_handle (by simp [rowFields])
  have h3 := h r.current_image_id (by simp [rowFields])
  have h4 := h r.collection_name (by simp [rowFields])
  have h5 := h r.new_image_url (by simp [rowFields])
  show rowOfValues [jsTrim r.product_id, jsTrim r.product_handle,
    jsTrim r.current_image_id, jsTrim r.collection_name, jsTrim r.new_image_url] = r
  rw [h1, h2, h3, h4, h5]
  rfl

theorem parseCSVLine_encodeRow (r : ImageUpdateCSVRow)
    (h : ∀ f ∈ rowFields r, ∀ ch ∈ f.data, ch ≠ '"' ∧ ch ≠ ',') :
    parseCSVLine (encodeRow r) = (rowFields r).map (fun f => jsTrim f) := by
  unfold parseCSVLine
  rw [encodeRow, joinSep_data]
  rw [show (",".data : List Char) = [','] from rfl]
  rw [show (rowFields r).map String.data = r.product_id.data ::
    [r.product_handle.data, r.current_image_id.data, r.collection_name.data,
      r.new_image_url.data] from rfl]
  rw [parseAux_join
    [r.product_handle.data, r.current_image_id.data, r.collection_name.data,
      r.new_image_url.data]
    r.product_id.data
    (fun ch hch => h r.product_id (by simp [rowFields]) ch hch)
    ?_ [] []]
  · rfl
  · intro q hq ch hch
    simp only [List.mem_cons, List.not_mem_nil, or_false] at hq
    rcases hq with rfl | rfl | rfl | rfl
    · exact h r.product_handle (by simp [rowFields]) ch hch
    · exact h r.current_image_id (by simp [rowFields]) ch hch
    · exact h r.collection_name (by simp [rowFields]) ch hch
    · exact h r.new_image_url (by simp [rowFields]) ch hch

theorem map_eq_self_of {α : Type} (l : List α) (f : α → α) (h : ∀ x ∈ l, f x = x) :
    l.map f = l := by
  induction l with
  | nil => rfl
  | cons a as ih =>
    rw [List.map_cons, h a (List.mem_cons_self a as),
      ih (fun x hx => h x (List.mem_cons_of_mem a hx))]

/-- A row whose `product_id` carries a trailing space: it contains no
comma, yet the decoder's per-field trim loses the space. -/
def c7BadRow : ImageUpdateCSVRow :=
  { product_id := "a ", product_handle := "h", current_image_id := "",
    collection_name := "c", new_image_url := "" }

def c7TrimmedRow : ImageUpdateCSVRow :=
  { product_id := "a", product_handle := "h", current_image_id := "",
    collection_name := "c", new_image_url := "" }

/-- C7 counterexample: the fields of `c7BadRow` contain no embedded commas,
but decode ∘ encode returns the trimmed row, not the original. -/
theorem c7_counterexample :
    (∀ f ∈ rowFields c7BadRow, ',' ∉ f.data) ∧
    decodeCSV (encodeCSV [c7BadRow]) = Except.ok [c7TrimmedRow] ∧
    c7TrimmedRow ≠ c7BadRow ∧
    decodeCSV (encodeCSV [c7BadRow]) ≠ Except.ok [c7BadRow] := by
  refine ⟨by decide, rfl, by decide, ?_⟩
  intro hcontra
  have h1 : Except.ok (ε := String) [c7TrimmedRow] = Except.ok [c7BadRow] :=
    (rfl : decodeCSV (encodeCSV [c7BadRow]) =
      Except.ok [c7TrimmedRow]).symm.trans hcontra
  have h2 : c7TrimmedRow = c7BadRow :=
    (List.cons.inj (Except.ok.inj h1)).1
  exact absurd h2 (by decide)

/-- C7 (amended): for every list of rows whose five field values contain
no comma, quote or newline characters and are invariant under trimming,
decoding the encoded text yields exactly the original rows. -/
theorem c7_roundtrip (rows : List ImageUpdateCSVRow)
    (h : ∀ r ∈ rows, CleanRow r) :
    decodeCSV (encodeCSV rows) = Except.ok rows := by
  have hlines := splitNewlines_encodeCSV rows h
  have hfil : splitNonBlankLines (encodeCSV rows) = csvHeader :: rows.map encodeRow := by
    unfold splitNonBlankLines
    rw [hlines]
    rw [List.filter_cons_of_pos (by decide)]
    congr 1
    refine List.filter_eq_self.mpr ?_
    intro a ha
    rcases List.mem_map.mp ha with ⟨r, _, rfl⟩
    exact nonblank_of_mem_comma (encodeRow r) (comma_mem_encodeRow r)
  unfold decodeCSV
  rw [hfil]
  rw [if_neg (by simp)]
  show Except.ok ((rows.map encodeRow).map
    (fun line => rowOfValues (parseCSVLine line))) = _
  rw [List.map_map]
  refine congrArg Except.ok (map_eq_self_of rows _ ?_)
  intro r hr
  show rowOfValues (parseCSVLine (encodeRow r)) = r
  rw [parseCSVLine_encodeRow r
    (fun f hf ch hch => ⟨((h r hr f hf).1 ch hch).1, ((h r hr f hf).1 ch hch).2.1⟩)]
  exact rowOfValues_trim_fields r (fun f hf => (h r hr f hf).2)

/-- The spec's sample scenario rows, all clean. -/
def c7SampleRows : List ImageUpdateCSVRow :=
  [{ product_id := "p1", product_handle := "h1", current_image_id := "img1",
     collection_name := "Coll", new_image_url := "https://example.com/a.jpg" },
   { product_id := "p1", product_handle := "h1", current_image_id := "",
     collection_name := "Coll", new_image_url := "https://example.com/b.jpg" },
   { product_id := "p2", product_handle := "h2", current_image_id := "img2",
     collection_name := "Coll", new_image_url := "" }]

/-- Witness for C7: the round-trip on the sample rows. -/
theorem c7_witness :
    (∀ r ∈ c7SampleRows, CleanRow r) ∧
    decodeCSV (encodeCSV c7SampleRows) = Except.ok c7SampleRows :=
  ⟨by decide, c7_roundtrip c7SampleRows (by decide)⟩

end ProductImageUpdater
